import Mathlib

set_option maxRecDepth 8000

/-
Shallow embedding of the zug-zug Lua sandboxing core:
- filesystem path admission (src/utils/filesystem.hpp and the LuaSandbox
  path handling in src/scripts/lua/runtime.cpp),
- the limited allocator and the timeout watchdog
  (src/scripts/lua/utils.hpp, src/scripts/lua/utils.cpp),
- the sandbox script-loading primitives (src/scripts/lua/runtime.cpp).
-/

/-! ## Filesystem paths (std::filesystem::path, lexical operations only) -/

/-- Model of a std::filesystem::path: an absoluteness flag (presence of the
root directory) plus the list of filename components, each of which may be
".", ".." or a plain name. Trailing separators and repeated separators are
not tracked: in the modelled code every path comparison first applies the
lexical normalization of fs_utils::normalize, which erases both. The empty
path is abs = false, comps = []. -/
structure FsPath where
  abs : Bool
  comps : List String
deriving DecidableEq

/-- C++ path::empty(): true only for the empty path (the path "/" is
non-empty, with abs = true and no filename components). -/
def FsPath.isEmptyPath (p : FsPath) : Bool := !p.abs && p.comps.isEmpty

/-- C++ path::operator/ as used by the modelled code, where the right
operand is always relative: the components are concatenated. (When the
right operand is empty, operator/ only appends a separator, which this
representation does not track; the result normalizes identically.) -/
def FsPath.join (root p : FsPath) : FsPath := ⟨root.abs, root.comps ++ p.comps⟩

/-- One step of the lexical-normalization stack machine. The stack holds the
already-processed components in reverse order (top of stack first).
"." components are dropped; ".." pops a preceding plain name, is dropped at
the root of an absolute path, and is kept at the front of a relative path. -/
def normStep (ab : Bool) (stack : List String) (c : String) : List String :=
  if c = "." then stack
  else if c = ".." then
    match stack with
    | [] => if ab then [] else [".."]
    | top :: rest =>
      if top = ".." then (if ab then top :: rest else ".." :: top :: rest) else rest
  else c :: stack

/-- The normalized component list of a path with absoluteness flag `ab`,
implementing rules 4-6 of C++ path::lexically_normal. -/
def normComps (ab : Bool) (cs : List String) : List String :=
  (cs.foldl (normStep ab) []).reverse

/-- C++ path::lexically_normal in this representation: the empty path stays
empty, a relative path whose components all cancel becomes ".", otherwise
the components are normalized. (The trailing separator sometimes kept by
lexically_normal is not tracked; fs_utils::normalize strips it anyway.) -/
def FsPath.lexicallyNormal (p : FsPath) : FsPath :=
  if p.isEmptyPath then p
  else
    let nc := normComps p.abs p.comps
    if !p.abs && nc.isEmpty then ⟨false, ["."]⟩ else ⟨p.abs, nc⟩

/-- fs_utils::normalize: lexically_normal followed by stripping one trailing
directory separator; the strip is the identity in this representation. -/
def fs_utils.normalize (p : FsPath) : FsPath := p.lexicallyNormal

/-- Model of fs::absolute for the paths that reach it in this code: the
identity on absolute paths, and joining to the current working directory
otherwise. -/
def fsAbsolute (cwd p : FsPath) : FsPath := if p.abs then p else cwd.join p

/-- The element sequence a C++ path iterator yields: the root-directory
element (modelled as `none`, never equal to any filename) when the path is
absolute, then the filename components. -/
def pathElems (p : FsPath) : List (Option String) :=
  (if p.abs then [Option.none] else []) ++ p.comps.map Option.some

/-- fs_utils::startsWith(path, root): false for an empty root, otherwise
component-wise mismatch of the two normalized absolute forms, true iff the
whole root was consumed (root is a component-aligned prefix of path). -/
def fs_utils.startsWith (cwd path root : FsPath) : Bool :=
  if root.isEmptyPath then false
  else
    (pathElems (fs_utils.normalize (fsAbsolute cwd root))).isPrefixOf
      (pathElems (fs_utils.normalize (fsAbsolute cwd path)))

/-- fs_utils::startsWith(path, roots): true iff some root in the list is a
component-aligned prefix (false for an empty list). -/
def fs_utils.startsWithAny (cwd path : FsPath) (roots : List FsPath) : Bool :=
  roots.any (fun root => fs_utils.startsWith cwd path root)

/-! ## Sandbox filesystem policy (LuaSandbox, runtime.cpp) -/

/-- The filesystem policy fields of LuaSandbox: the scripts root and the
allow-list. -/
structure SandboxFsConfig where
  scriptsRoot : FsPath
  allowedScriptPaths : List FsPath
deriving DecidableEq

/-- LuaSandbox::allowScriptPath: rejected when the root or the argument is
empty (the source then repeats the empty test together with a dead
relative-with-empty-root test); a relative path is joined to the root; the
normalized result is appended to the allow-list. -/
def LuaSandbox.allowScriptPath (cfg : SandboxFsConfig) (path : FsPath) :
    SandboxFsConfig × Bool :=
  if cfg.scriptsRoot.isEmptyPath || path.isEmptyPath then (cfg, false)
  else if path.isEmptyPath || (cfg.scriptsRoot.isEmptyPath && !path.abs) then (cfg, false)
  else
    let allow := if !path.abs then cfg.scriptsRoot.join path else path
    ({ cfg with allowedScriptPaths := cfg.allowedScriptPaths ++ [fs_utils.normalize allow] },
     true)

/-- LuaSandbox::setPathsForScripts: the root is cleared and re-set only when
non-empty and absolute (normalized); the allow-list is cleared and rebuilt
through allowScriptPath. -/
def LuaSandbox.setPathsForScripts (root : FsPath) (allowed : List FsPath) :
    SandboxFsConfig :=
  let root' := if !root.isEmptyPath && root.abs then fs_utils.normalize root
               else ⟨false, []⟩
  allowed.foldl (fun cfg p => (LuaSandbox.allowScriptPath cfg p).1)
    { scriptsRoot := root', allowedScriptPaths := [] }

/-- LuaSandbox::toScriptPath: a relative file name is joined to a non-empty
root; the result is lexically normalized. -/
def LuaSandbox.toScriptPath (cfg : SandboxFsConfig) (fileName : FsPath) : FsPath :=
  let scriptPath := if !fileName.abs && !cfg.scriptsRoot.isEmptyPath
                    then cfg.scriptsRoot.join fileName else fileName
  scriptPath.lexicallyNormal

/-- LuaSandbox::isPathAllowed: the empty path is rejected; a relative path
is rejected when the root is empty and otherwise joined to the root; the
(possibly joined) path is then tested against the allow-list with
fs_utils::startsWith. -/
def LuaSandbox.isPathAllowed (cfg : SandboxFsConfig) (cwd scriptFile : FsPath) : Bool :=
  if scriptFile.isEmptyPath then false
  else if !scriptFile.abs then
    if cfg.scriptsRoot.isEmptyPath then false
    else fs_utils.startsWithAny cwd (cfg.scriptsRoot.join scriptFile)
           cfg.allowedScriptPaths
  else fs_utils.startsWithAny cwd scriptFile cfg.allowedScriptPaths

/-- path::string() for this representation (used in error messages). -/
def FsPath.toPathString (p : FsPath) : String :=
  (if p.abs then "/" else "") ++ String.intercalate "/" p.comps

/-! ## Files and bytecode detection (lua::isBytecode, utils.cpp) -/

/-- The four bytes of LUA_SIGNATURE: ESC, then "Lua". -/
def luaSignature : List Nat := [27, 76, 117, 97]

/-- The file system as seen through fs::exists and std::ifstream: each path
maps to the byte contents of the file it names, if any. -/
def FileSys : Type := FsPath → Option (List Nat)

/-- fs::exists. -/
def fsExists (fsys : FileSys) (p : FsPath) : Bool := (fsys p).isSome

/-- lua::isBytecode: false when the file cannot be opened or holds fewer
than four bytes, otherwise true iff the first four bytes equal
LUA_SIGNATURE. -/
def lua.isBytecode (fsys : FileSys) (file : FsPath) : Bool :=
  match fsys file with
  | Option.none => false
  | Option.some bytes =>
    if bytes.length < luaSignature.length then false
    else decide (bytes.take luaSignature.length = luaSignature)

/-! ## LuaSandbox::runFile and its admission check (runtime.cpp) -/

/-- LuaSandbox::checkIfAllowedToLoad: existence, then allow-list admission,
then bytecode refusal, in that order; the second component is the error
category for the first failing check. -/
def LuaSandbox.checkIfAllowedToLoad (cfg : SandboxFsConfig) (fsys : FileSys)
    (cwd scriptFile : FsPath) : Bool × String :=
  if !fsExists fsys scriptFile then
    (false, "Attempting to run a non-existent script")
  else if !LuaSandbox.isPathAllowed cfg cwd scriptFile then
    (false, "Attempting to run a script outside the allowed path")
  else if lua.isBytecode fsys scriptFile then
    (false, "Attempting to run precompiled Lua bytecode")
  else (true, "")

/-- Outcome of LuaSandbox::runFile: either a failing protected-function
result carrying the formatted error message, or execution of the file in
the sandbox environment (delegated to the engine). -/
inductive RunFileResult where
  | fail (errMsg : String)
  | executed
deriving DecidableEq

/-- LuaSandbox::runFile: on a failing check, a protected-function result
with call status `file` (invalid) whose message is "<category>: <path>";
otherwise the file is executed in the sandbox environment. -/
def LuaSandbox.runFile (cfg : SandboxFsConfig) (fsys : FileSys)
    (cwd scriptFile : FsPath) : RunFileResult :=
  match LuaSandbox.checkIfAllowedToLoad cfg fsys cwd scriptFile with
  | (false, errMsg) => .fail (errMsg ++ ": " ++ scriptFile.toPathString)
  | (true, _) => .executed

/-! ## Limited allocator (lua::memory, utils.hpp / utils.cpp) -/

/-- The value of std::numeric_limits of size_t max on the 64-bit target. -/
def SIZE_MAX_C : Nat := 2 ^ 64 - 1

/-- lua::memory::LimitedAllocatorState with its default member values
(cDefaultMemLimit = 1 MiB). -/
structure LimitedAllocatorState where
  used : Nat := 0
  limit : Nat := 1024 * 1024
  limitReached : Bool := false
  overflow : Bool := false
deriving DecidableEq

def LimitedAllocatorState.isLimitEnabled (s : LimitedAllocatorState) : Bool :=
  decide (0 < s.limit)

def LimitedAllocatorState.resetErrorFlags (s : LimitedAllocatorState) :
    LimitedAllocatorState :=
  { s with limitReached := false, overflow := false }

def LimitedAllocatorState.disableLimit (s : LimitedAllocatorState) :
    LimitedAllocatorState :=
  { s with limit := 0 }

/-- What lua::memory::limitedAlloc did on a call: freed (newSize = 0,
returns null), failed the overflow check, failed the limit check, saw
std::realloc fail, or succeeded. The returned pointer is null exactly for
the first four outcomes. -/
inductive AllocOutcome where
  | freed
  | overflowFail
  | limitFail
  | reallocFail
  | ok
deriving DecidableEq

/-- lua::memory::limitedAlloc for a non-null allocator state. `ptrIsNull`
models ptr == nullptr (the engine convention forcing currSize to 0);
`reallocOk` models whether the underlying std::realloc succeeds. -/
def limitedAlloc (st : LimitedAllocatorState) (ptrIsNull : Bool)
    (currSize newSize : Nat) (reallocOk : Bool) :
    LimitedAllocatorState × AllocOutcome :=
  let curr := if ptrIsNull then 0 else currSize
  if newSize = 0 then
    ({ st with used := st.used - (if curr ≤ st.used then curr else st.used) }, .freed)
  else
    let usedBase := if curr ≤ st.used then st.used - curr else 0
    if SIZE_MAX_C - usedBase < newSize then
      ({ st with overflow := true }, .overflowFail)
    else
      let newUsed := usedBase + newSize
      if st.isLimitEnabled && decide (st.limit < newUsed) then
        ({ st with limitReached := true }, .limitFail)
      else if reallocOk then ({ st with used := newUsed }, .ok)
      else (st, .reallocFail)

/-- One recorded call to the allocator callback. -/
structure AllocCall where
  ptrIsNull : Bool
  currSize : Nat
  newSize : Nat
  reallocOk : Bool
deriving DecidableEq

/-- The allocator state after a sequence of allocator calls. -/
def runAllocCalls (st : LimitedAllocatorState) (calls : List AllocCall) :
    LimitedAllocatorState :=
  calls.foldl (fun s c => (limitedAlloc s c.ptrIsNull c.currSize c.newSize c.reallocOk).1) st

/-! ## Standard libraries, presets and symbol rules (runtime.cpp, utils.hpp) -/

/-- The closed enumeration sol::lib of the engine standard libraries named
in lua::details::libsNames. -/
inductive LuaLib where
  | base | bit32 | coroutine | debug | ffi | io | jit | math | os | package
  | string | table | utf8
deriving DecidableEq

/-- lua::libName: the canonical short name of each library. -/
def lua.libName : LuaLib → String
  | .base => "base"
  | .bit32 => "bit32"
  | .coroutine => "coroutine"
  | .debug => "debug"
  | .ffi => "ffi"
  | .io => "io"
  | .jit => "jit"
  | .math => "math"
  | .os => "os"
  | .package => "package"
  | .string => "string"
  | .table => "table"
  | .utf8 => "utf8"

/-- lua::libLookupName: the global-table name of a library; base lives in
the global table itself, looked up as "_G". -/
def lua.libLookupName (lib : LuaLib) : String :=
  match lib with
  | .base => "_G"
  | _ => lua.libName lib

/-- LuaSandbox::Presets. -/
inductive SandboxPreset where
  | Core | Minimal | Complete | Custom
deriving DecidableEq

/-- LuaSandbox::sandboxPresets: the libraries loaded for each preset. -/
def LuaSandbox.sandboxPresets : SandboxPreset → List LuaLib
  | .Core => []
  | .Minimal => [.base, .table]
  | .Complete => [.base, .coroutine, .math, .os, .string, .table]
  | .Custom => []

/-- LuaSandbox::LibSymbolsRules: either an explicit allowed-name list, or
allow-all-except with a restricted-name list. -/
structure LibSymbolsRules where
  allowedAllExceptRestricted : Bool := false
  allowed : List String := []
  restricted : List String := []

/-- LuaSandbox::libsSandboxingRules via LuaSandbox::checkRulesFor: the fixed
per-library symbol policy; libraries without an entry are not loadable. -/
def LuaSandbox.checkRulesFor (lib : LuaLib) : Option LibSymbolsRules :=
  match lib with
  | .base => Option.some
      { allowed := ["assert", "error", "ipairs", "next", "pairs", "pcall",
                    "select", "tonumber", "tostring", "type", "unpack",
                    "_VERSION", "xpcall"] }
  | .coroutine => Option.some { allowedAllExceptRestricted := true }
  | .math => Option.some { allowedAllExceptRestricted := true,
                           restricted := ["random", "randomseed"] }
  | .os => Option.some { allowed := ["clock", "difftime", "time"] }
  | .string => Option.some { allowedAllExceptRestricted := true,
                             restricted := ["dump"] }
  | .table => Option.some { allowedAllExceptRestricted := true }
  | _ => Option.none

/-! ## Lua values and tables (value-level model of sol objects) -/

/-- A Lua value as seen through sol: nil, scalars, a loaded chunk (function)
identified by id, or a table modelled by its string-keyed entries. -/
inductive LuaValue where
  | nil
  | boolean (b : Bool)
  | number (n : Int)
  | str (s : String)
  | chunk (id : Nat)
  | table (fields : List (String × LuaValue))

def LuaValue.isNil : LuaValue → Bool
  | .nil => true
  | _ => false

/-- Table write dst[k] = v: assigning nil removes the key (Lua semantics),
anything else replaces the entry. -/
def tset (t : List (String × LuaValue)) (k : String) (v : LuaValue) :
    List (String × LuaValue) :=
  if v.isNil then t.filter (fun e => e.1 ≠ k)
  else (k, v) :: t.filter (fun e => e.1 ≠ k)

/-- Table read src[k]: nil when the key is absent. -/
def tget (t : List (String × LuaValue)) (k : String) : LuaValue :=
  ((t.find? (fun e => e.1 = k)).map (fun e => e.2)).getD .nil

/-! ## Interpreter host (LuaRuntime, runtime.cpp) -/

/-- State of a LuaRuntime. `openedLibs` is the LuaRuntime::loadedLibs cache;
`engineLibs` records which libraries are actually opened inside the current
engine instance; `globals` is the engine global table restricted to the
library lookup names. `allocActivated` is modelled from the spec: the
allocator-state activation flag read by allocatorState.isActivated(), true
iff the runtime was constructed with the limited allocator (the
declaration lives in the runtime header, absent from src/). -/
structure RuntimeState where
  openedLibs : List LuaLib
  engineLibs : List LuaLib
  globals : String → Option (List (String × LuaValue))
  allocActivated : Bool
  alloc : LimitedAllocatorState

/-- LuaRuntime::require: opens the native library in the engine exactly
once, guarded by the loadedLibs cache. `libTables` is the engine oracle
giving the global table each standard library publishes when opened. -/
def LuaRuntime.require (libTables : LuaLib → List (String × LuaValue))
    (rt : RuntimeState) (lib : LuaLib) : RuntimeState :=
  if lib ∈ rt.openedLibs then rt
  else
    { rt with
      engineLibs := lib :: rt.engineLibs,
      globals := fun n => if n = lua.libLookupName lib then Option.some (libTables lib)
                          else rt.globals n,
      openedLibs := lib :: rt.openedLibs }

/-- LuaRuntime::reset: when the limited allocator is activated, the limit is
saved, the limit is disabled, the engine is destroyed and recreated (the
allocator traffic of that recreation is the `traffic` parameter), and the
allocator state is rebuilt keeping the current `used` and the saved limit
(the flags take their default false values). The new engine has no
libraries opened and empty globals. The loadedLibs cache is not touched by
the source. -/
def LuaRuntime.reset (rt : RuntimeState) (traffic : List AllocCall) : RuntimeState :=
  if rt.allocActivated then
    let currentLimit := rt.alloc.limit
    let st2 := runAllocCalls (rt.alloc.disableLimit) traffic
    { rt with
      engineLibs := [],
      globals := fun _ => Option.none,
      alloc := { used := st2.used, limit := currentLimit,
                 limitReached := false, overflow := false } }
  else
    { rt with engineLibs := [], globals := fun _ => Option.none }

/-! ## Sandbox environment and library projection (LuaSandbox, runtime.cpp) -/

/-- The per-sandbox state used by library loading: the capability preset,
the bag of loaded libraries, and the sandbox environment entries (the
environment self-reference "_G" is left implicit: for base the projection
writes directly into `env`). -/
structure SandboxState where
  preset : SandboxPreset
  loadedLibs : List LuaLib
  env : List (String × LuaValue)

/-- The entry-copy loops of LuaSandbox::copyLibFromState applied to a
destination table: allow-all copies every source entry and then nils each
restricted name; otherwise each allowed name is copied (absent names copy
nil). -/
def applyRules (src : List (String × LuaValue)) (rules : LibSymbolsRules)
    (dst : List (String × LuaValue)) : List (String × LuaValue) :=
  if rules.allowedAllExceptRestricted then
    let copied := src.foldl (fun d e => tset d e.1 e.2) dst
    rules.restricted.foldl (fun d name => tset d name .nil) copied
  else
    rules.allowed.foldl (fun d name => tset d name (tget src name)) dst

/-- LuaSandbox::copyLibFromState: nothing happens for an empty lookup name
or an invalid source table; base is projected directly into the sandbox
environment; any other library is projected into a fresh table stored in
the environment under its lookup name. -/
def LuaSandbox.copyLibFromState (rt : RuntimeState) (sb : SandboxState)
    (lib : LuaLib) (rules : LibSymbolsRules) : SandboxState :=
  let name := lua.libLookupName lib
  if name = "" then sb
  else
    match rt.globals name with
    | Option.none => sb
    | Option.some src =>
      if lib = LuaLib.base then { sb with env := applyRules src rules sb.env }
      else { sb with env := tset sb.env name (.table (applyRules src rules [])) }

/-- LuaSandbox::loadLib: no rules entry means failure; otherwise the host
opens the library, it is projected, and it is recorded as loaded. -/
def LuaSandbox.loadLib (libTables : LuaLib → List (String × LuaValue))
    (rt : RuntimeState) (sb : SandboxState) (lib : LuaLib) :
    (RuntimeState × SandboxState) × Bool :=
  match LuaSandbox.checkRulesFor lib with
  | Option.none => ((rt, sb), false)
  | Option.some rules =>
    let rt' := LuaRuntime.require libTables rt lib
    let sb' := LuaSandbox.copyLibFromState rt' sb lib rules
    ((rt', { sb' with loadedLibs := lib :: sb'.loadedLibs }), true)

/-- LuaSandbox::require: loadLib for the Custom preset, and failure without
any effect otherwise. -/
def LuaSandbox.require (libTables : LuaLib → List (String × LuaValue))
    (rt : RuntimeState) (sb : SandboxState) (lib : LuaLib) :
    (RuntimeState × SandboxState) × Bool :=
  if sb.preset = SandboxPreset.Custom then LuaSandbox.loadLib libTables rt sb lib
  else ((rt, sb), false)

/-! ## Timeout watchdog and guarded scope (lua::timeoutGuard, utils.cpp) -/

/-- lua::timeoutGuard::HookContext: a deadline on the monotonic clock
(modelled as Nat) and the enabled flag; default-constructed disabled. -/
structure HookContext where
  deadline : Nat := 0
  enabled : Bool := false
deriving DecidableEq

/-- HookContext::start(limit): enable and set deadline = now + limit. -/
def HookContext.start (c : HookContext) (now limit : Nat) : HookContext :=
  let _ := c
  { deadline := now + limit, enabled := true }

/-- HookContext::isTimedOut: enabled and now past the deadline. -/
def HookContext.isTimedOut (c : HookContext) (now : Nat) : Bool :=
  c.enabled && decide (c.deadline < now)

/-- lua::timeoutGuard::defaultHook: the message it raises through
luaL_error, given what the tagged registry slot holds. luaL_error does not
return, so a missing context raises its message before the timeout test is
reached; an armed, timed-out context raises the timeout message; otherwise
nothing is raised. -/
def lua.timeoutGuard.defaultHook (ctx : Option HookContext) (now : Nat) :
    Option String :=
  match ctx with
  | Option.none => Option.some "Timeout guard: Unable to get hook context."
  | Option.some c =>
    if c.isTimedOut now then Option.some "Timeout guard: Script timed out."
    else Option.none

/-- The per-engine state the watchdog machinery touches: the tagged registry
slot (holding, when occupied, the index of the watchdog whose context was
registered) and whether a debug hook is installed. -/
structure TGEngine where
  slotOwner : Option Nat
  hookSet : Bool
deriving DecidableEq

/-- lua::timeoutGuard::Watchdog data: attachment to the (single, shared)
engine, the running flag, and the owned hook context. -/
structure Watchdog where
  attached : Bool
  running : Bool
  context : HookContext
deriving DecidableEq

/-- A system of watchdogs sharing one engine. -/
structure TGSystem where
  engine : TGEngine
  watchdogs : List Watchdog
deriving DecidableEq

/-- Whether watchdog i reports armed(). -/
def armedIn (sys : TGSystem) (i : Nat) : Bool :=
  match sys.watchdogs[i]? with
  | Option.some w => w.running
  | Option.none => false

/-- Watchdog::arm on watchdog i at monotonic time `now`: refuses (in source
order) when already armed, when not attached, when the registry slot is
non-empty, and when the engine already has a hook; on success it sets
running, registers its context, installs the hook and starts the context. -/
def Watchdog.arm (sys : TGSystem) (i : Nat) (now limit : Nat) : TGSystem × Bool :=
  match sys.watchdogs[i]? with
  | Option.none => (sys, false)
  | Option.some w =>
    if w.running then (sys, false)
    else if !w.attached then (sys, false)
    else if !(sys.engine.slotOwner = Option.none) then (sys, false)
    else if sys.engine.hookSet then (sys, false)
    else
      let w' : Watchdog := { w with running := true,
                                    context := w.context.start now limit }
      ({ engine := { slotOwner := Option.some i, hookSet := true },
         watchdogs := sys.watchdogs.set i w' },
       true)

/-- Watchdog::rearm: only refreshes the context of an armed watchdog. -/
def Watchdog.rearm (sys : TGSystem) (i : Nat) (now limit : Nat) : TGSystem × Bool :=
  match sys.watchdogs[i]? with
  | Option.none => (sys, false)
  | Option.some w =>
    if !w.running then (sys, false)
    else
      let w' : Watchdog := { w with context := w.context.start now limit }
      ({ sys with watchdogs := sys.watchdogs.set i w' }, true)

/-- Watchdog::disarm: resets the context and the running flag always, and
removes the hook and the registry slot only when it was attached and
armed. -/
def Watchdog.disarm (sys : TGSystem) (i : Nat) : TGSystem :=
  match sys.watchdogs[i]? with
  | Option.none => sys
  | Option.some w =>
    let wasArmed := w.running
    let w' : Watchdog := { w with context := {}, running := false }
    let sys' : TGSystem := { sys with watchdogs := sys.watchdogs.set i w' }
    if !w.attached || !wasArmed then sys'
    else { sys' with engine := { slotOwner := Option.none, hookSet := false } }

/-- Watchdog::detach: disarm, then drop the engine reference. -/
def Watchdog.detach (sys : TGSystem) (i : Nat) : TGSystem :=
  match (Watchdog.disarm sys i).watchdogs[i]? with
  | Option.none => Watchdog.disarm sys i
  | Option.some w =>
    { Watchdog.disarm sys i with
      watchdogs := (Watchdog.disarm sys i).watchdogs.set i { w with attached := false } }

/-- Watchdog::attach(newLua, force): force first detaches; otherwise an
armed watchdog refuses; on success the engine reference is (re)taken. -/
def Watchdog.attach (sys : TGSystem) (i : Nat) (force : Bool) : TGSystem × Bool :=
  match sys.watchdogs[i]? with
  | Option.none => (sys, false)
  | Option.some w =>
    if force then
      match (Watchdog.detach sys i).watchdogs[i]? with
      | Option.none => (Watchdog.detach sys i, true)
      | Option.some w2 =>
        ({ Watchdog.detach sys i with
           watchdogs := (Watchdog.detach sys i).watchdogs.set i { w2 with attached := true } },
         true)
    else if w.running then (sys, false)
    else
      ({ sys with watchdogs := sys.watchdogs.set i { w with attached := true } }, true)

/-- The watchdog operations a trace may perform. -/
inductive TGOp where
  | arm (i now limit : Nat)
  | rearm (i now limit : Nat)
  | disarm (i : Nat)
  | attach (i : Nat) (force : Bool)
  | detach (i : Nat)
deriving DecidableEq

def stepOp (sys : TGSystem) : TGOp → TGSystem
  | .arm i now limit => (Watchdog.arm sys i now limit).1
  | .rearm i now limit => (Watchdog.rearm sys i now limit).1
  | .disarm i => Watchdog.disarm sys i
  | .attach i force => (Watchdog.attach sys i force).1
  | .detach i => Watchdog.detach sys i

def runOps (sys : TGSystem) (ops : List TGOp) : TGSystem :=
  ops.foldl stepOp sys

/-- A freshly constructed watchdog attached to the engine. -/
def wdInit : Watchdog := { attached := true, running := false, context := {} }

/-- The initial system: a clean engine (empty slot, no hook) and n fresh
watchdogs attached to it. -/
def initSys (n : Nat) : TGSystem :=
  { engine := { slotOwner := Option.none, hookSet := false },
    watchdogs := List.replicate n wdInit }

/-- lua::timeoutGuard::GuardedScope: holds the armed watchdog index, or
nothing when disabled (arm failed, or moved-from). -/
structure GuardedScope where
  idx : Option Nat
deriving DecidableEq

/-- GuardedScope construction: arm the watchdog; on failure the scope is
disabled. -/
def mkGuardedScope (sys : TGSystem) (i : Nat) (now limit : Nat) :
    TGSystem × GuardedScope :=
  ((Watchdog.arm sys i now limit).1,
   ⟨if (Watchdog.arm sys i now limit).2 then Option.some i else Option.none⟩)

/-- GuardedScope destructor: a disabled scope does nothing, otherwise it
disarms its watchdog. -/
def GuardedScope.destruct (sys : TGSystem) (gs : GuardedScope) : TGSystem :=
  match gs.idx with
  | Option.none => sys
  | Option.some i => Watchdog.disarm sys i

/-- GuardedScope::timedOut: false when disabled, otherwise the watchdog
report. -/
def GuardedScope.timedOut (sys : TGSystem) (gs : GuardedScope) (now : Nat) : Bool :=
  match gs.idx with
  | Option.none => false
  | Option.some i =>
    match sys.watchdogs[i]? with
    | Option.some w => w.context.isTimedOut now
    | Option.none => false

/-! ## Sandbox load primitives (loadfile / require_file, runtime.cpp) -/

/-- The engine as seen by loadfile and require_file: loading a file either
fails with a parse error message or yields a chunk id; calling a chunk
either fails with an error message or returns the list of values the chunk
returned. -/
structure ChunkEngine where
  loadFile : FsPath → Except String Nat
  callChunk : Nat → Except String (List LuaValue)

/-- LuaSandbox::loadfileReplace. A missing string argument is modelled as
`none`. The ResultOrErrorMsg is the pair of sol objects returned: on every
failure path (nil, message string); on success (chunk, nil), the chunk
bound to the sandbox environment before return (the binding itself is not
observable in this model). -/
def LuaSandbox.loadfileReplace (cfg : SandboxFsConfig) (fsys : FileSys)
    (cwd : FsPath) (eng : ChunkEngine) (fileName : Option FsPath) :
    LuaValue × LuaValue :=
  match fileName with
  | Option.none => (.nil, .str "Bad argument #1 to 'loadfile' (string expected)")
  | Option.some fp =>
    let filePath := LuaSandbox.toScriptPath cfg fp
    match LuaSandbox.checkIfAllowedToLoad cfg fsys cwd filePath with
    | (false, msg) => (.nil, .str msg)
    | (true, _) =>
      match eng.loadFile filePath with
      | .error e => (.nil, .str e)
      | .ok cid => (.chunk cid, .nil)

/-- LuaSandbox::requireFile: load through loadfileReplace; on an invalid
chunk propagate (nil, message); execute the chunk; on execution failure
(nil, message); with no returned values the source returns a
default-constructed ResultOrErrorMsg, both components nil; otherwise the
first returned value paired with nil. -/
def LuaSandbox.requireFile (cfg : SandboxFsConfig) (fsys : FileSys)
    (cwd : FsPath) (eng : ChunkEngine) (fileName : Option FsPath) :
    LuaValue × LuaValue :=
  match LuaSandbox.loadfileReplace cfg fsys cwd eng fileName with
  | (.chunk cid, _) =>
    match eng.callChunk cid with
    | .error e => (.nil, .str e)
    | .ok vals =>
      match vals with
      | [] => (.nil, .nil)
      | v :: _ => (v, .nil)
  | (_, errMsg) => (.nil, errMsg)

/-- Exactly one of the two components of a ResultOrErrorMsg is non-nil. -/
def exactlyOneNonNil (r : LuaValue × LuaValue) : Bool :=
  r.1.isNil != r.2.isNil

/-! ## Specification-side definitions and concrete instances -/

/-- The admission condition as the specification states it: some allow-list
entry is a component-aligned path-segment prefix of the lexical
normalization of the path (a relative path being first joined to the
sandbox root). Stated from the spec wording, to be compared with
LuaSandbox::isPathAllowed. -/
def specAdmitted (cfg : SandboxFsConfig) (p : FsPath) : Bool :=
  cfg.allowedScriptPaths.any (fun a =>
    (pathElems a).isPrefixOf
      (pathElems (fs_utils.normalize (if p.abs then p else cfg.scriptsRoot.join p))))

/-- The invariant every LuaSandbox filesystem policy reachable through
setPathsForScripts / allowScriptPath satisfies: an empty root forces an
empty allow-list, a non-empty root is absolute, and every allow entry is
absolute and already normalized. -/
def WfConfig (cfg : SandboxFsConfig) : Prop :=
  (cfg.scriptsRoot.isEmptyPath = true → cfg.allowedScriptPaths = []) ∧
  (cfg.scriptsRoot.isEmptyPath = false → cfg.scriptsRoot.abs = true) ∧
  (∀ a ∈ cfg.allowedScriptPaths, a.abs = true ∧ fs_utils.normalize a = a)

/-- Components that are plain names (neither "." nor ".."). -/
def PlainNames (l : List String) : Prop := ∀ x ∈ l, x ≠ "." ∧ x ≠ ".."

/-- The registry-slot invariant of the watchdog system: an armed watchdog is
the registered owner of the engine registry slot. -/
def SlotInv (sys : TGSystem) : Prop :=
  ∀ j, armedIn sys j = true → sys.engine.slotOwner = Option.some j

/-- A concrete absolute scripts root. -/
def rootC1 : FsPath := ⟨true, ["r"]⟩

/-- The policy with root /r and the allow-list [/r]. -/
def cfgC1 : SandboxFsConfig := LuaSandbox.setPathsForScripts rootC1 [rootC1]

/-- An engine-library oracle publishing empty tables. -/
def zeroLibTables : LuaLib → List (String × LuaValue) := fun _ => []

/-- A runtime without the limited allocator. -/
def rtPlain : RuntimeState :=
  { openedLibs := [], engineLibs := [], globals := fun _ => Option.none,
    allocActivated := false, alloc := {} }

/-- A fresh sandbox with the Minimal preset. -/
def sbMinimal : SandboxState := { preset := .Minimal, loadedLibs := [], env := [] }

/-- A limited-allocator runtime whose sticky failure flags are both set. -/
def rtFlagged : RuntimeState :=
  { openedLibs := [], engineLibs := [], globals := fun _ => Option.none,
    allocActivated := true,
    alloc := { used := 5, limit := 7, limitReached := true, overflow := true } }

/-- A fresh limited-allocator runtime. -/
def rtLimited : RuntimeState :=
  { openedLibs := [], engineLibs := [], globals := fun _ => Option.none,
    allocActivated := true, alloc := {} }

/-- Root /scripts for the load-primitive instances. -/
def rootC9 : FsPath := ⟨true, ["scripts"]⟩

/-- Policy with root /scripts and allow-list [/scripts]. -/
def cfgC9 : SandboxFsConfig := LuaSandbox.setPathsForScripts rootC9 [rootC9]

/-- The admitted module file /scripts/m.lua. -/
def fileC9 : FsPath := ⟨true, ["scripts", "m.lua"]⟩

/-- A file system holding only /scripts/m.lua, with non-bytecode content. -/
def fsysC9 : FileSys :=
  fun p => if p = fileC9 then Option.some [108, 111, 108] else Option.none

/-- An engine whose loads succeed and whose chunks return no values. -/
def engC9 : ChunkEngine :=
  { loadFile := fun _ => Except.ok 0, callChunk := fun _ => Except.ok [] }

/-! ## Theorems -/

theorem limitedAlloc_overflow_mono (st : LimitedAllocatorState) (p : Bool)
    (c n : Nat) (r : Bool) (h : st.overflow = true) :
    (limitedAlloc st p c n r).1.overflow = true := by
  unfold limitedAlloc
  split_ifs <;> simp [h] <;> split_ifs <;> simp [h]

theorem limitedAlloc_limitReached_mono (st : LimitedAllocatorState) (p : Bool)
    (c n : Nat) (r : Bool) (h : st.limitReached = true) :
    (limitedAlloc st p c n r).1.limitReached = true := by
  unfold limitedAlloc
  split_ifs <;> simp [h] <;> split_ifs <;> simp [h]

theorem runAllocCalls_overflow_mono (calls : List AllocCall)
    (st : LimitedAllocatorState) (h : st.overflow = true) :
    (runAllocCalls st calls).overflow = true := by
  induction calls generalizing st with
  | nil => exact h
  | cons cl cls ih =>
    simp only [runAllocCalls, List.foldl_cons] at *
    exact ih _ (limitedAlloc_overflow_mono _ _ _ _ _ h)

theorem runAllocCalls_limitReached_mono (calls : List AllocCall)
    (st : LimitedAllocatorState) (h : st.limitReached = true) :
    (runAllocCalls st calls).limitReached = true := by
  induction calls generalizing st with
  | nil => exact h
  | cons cl cls ih =>
    simp only [runAllocCalls, List.foldl_cons] at *
    exact ih _ (limitedAlloc_limitReached_mono _ _ _ _ _ h)

/-- C3: for newSize > 0, when newSize overflows past SIZE_MAX - usedBase the
call returns null with outcome overflowFail, sets overflow and leaves used
(and everything but the overflow flag) unchanged; when the limit is enabled
and usedBase + newSize exceeds it (the overflow check not having fired
first), the call returns null with outcome limitFail, sets limitReached
and leaves used unchanged; both flags are sticky across any sequence of
allocator calls, and resetErrorFlags clears them. -/
theorem limitedAlloc_failure_flags :
    (∀ (st : LimitedAllocatorState) (p : Bool) (c n : Nat) (r : Bool), 0 < n →
      SIZE_MAX_C - (st.used - min st.used (if p then 0 else c)) < n →
      limitedAlloc st p c n r = ({ st with overflow := true }, .overflowFail)) ∧
    (∀ (st : LimitedAllocatorState) (p : Bool) (c n : Nat) (r : Bool), 0 < n →
      ¬ SIZE_MAX_C - (st.used - min st.used (if p then 0 else c)) < n →
      st.isLimitEnabled = true →
      st.limit < (st.used - min st.used (if p then 0 else c)) + n →
      limitedAlloc st p c n r = ({ st with limitReached := true }, .limitFail)) ∧
    (∀ (st : LimitedAllocatorState) (calls : List AllocCall),
      (st.overflow = true → (runAllocCalls st calls).overflow = true) ∧
      (st.limitReached = true → (runAllocCalls st calls).limitReached = true)) ∧
    (∀ st : LimitedAllocatorState,
      st.resetErrorFlags.overflow = false ∧ st.resetErrorFlags.limitReached = false) := by
  have husedBase : ∀ (u c : Nat),
      (if c ≤ u then u - c else 0) = u - min u c := by
    intro u c
    rcases le_or_lt c u with h | h
    · simp [h, Nat.min_eq_right h]
    · have : ¬ c ≤ u := not_le.mpr h
      simp [this, Nat.min_eq_left h.le]
  refine ⟨?_, ?_, ?_, ?_⟩
  · intro st p c n r hn hov
    unfold limitedAlloc
    rw [if_neg (Nat.pos_iff_ne_zero.mp hn)]
    rw [husedBase st.used (if p then 0 else c)] at *
    rw [if_pos hov]
  · intro st p c n r hn hov hen hlim
    unfold limitedAlloc
    rw [if_neg (Nat.pos_iff_ne_zero.mp hn)]
    rw [husedBase st.used (if p then 0 else c)] at *
    rw [if_neg hov, if_pos (by simp [hen, hlim])]
  · intro st calls
    exact ⟨runAllocCalls_overflow_mono calls st,
           runAllocCalls_limitReached_mono calls st⟩
  · intro st
    simp [LimitedAllocatorState.resetErrorFlags]

/-- C3 witness: at a concrete state with used = 10, a realloc request that
would push the accounting past SIZE_MAX sets overflow; at a concrete state
with limit 64 a realloc from 64 to 65 sets limitReached; both stay set over
a further call sequence; resetErrorFlags clears them. -/
theorem limitedAlloc_failure_flags_witness :
    (limitedAlloc { used := 10, limit := 0 } false 0 SIZE_MAX_C true =
      ({ used := 10, limit := 0, overflow := true }, .overflowFail)) ∧
    (limitedAlloc { used := 64, limit := 64 } false 64 65 true =
      ({ used := 64, limit := 64, limitReached := true }, .limitFail)) ∧
    ((runAllocCalls { used := 10, limit := 0, overflow := true }
        [{ ptrIsNull := true, currSize := 0, newSize := 8, reallocOk := true }]).overflow
      = true) := by
  refine ⟨?_, ?_, ?_⟩
  · exact limitedAlloc_failure_flags.1 _ _ _ _ _ (by decide) (by decide)
  · exact limitedAlloc_failure_flags.2.1 _ _ _ _ _ (by decide) (by decide)
      (by decide) (by decide)
  · exact (limitedAlloc_failure_flags.2.2.1 _ _).1 rfl

/-- C7: a free call on a live pointer decrements used by min(used,
currSize), hence a free with currSize > used leaves used = 0 (no
underflow); a free with a null pointer treats currSize as 0 and leaves
used unchanged; and limit = 0 disables the cap: no call outcome is limitFail
and limitReached is never newly set. -/
theorem limitedAlloc_used_no_underflow :
    (∀ (st : LimitedAllocatorState) (c : Nat) (r : Bool),
      (limitedAlloc st false c 0 r).1.used = st.used - min st.used c) ∧
    (∀ (st : LimitedAllocatorState) (c : Nat) (r : Bool), st.used < c →
      (limitedAlloc st false c 0 r).1.used = 0) ∧
    (∀ (st : LimitedAllocatorState) (c : Nat) (r : Bool),
      (limitedAlloc st true c 0 r).1.used = st.used) ∧
    (∀ (st : LimitedAllocatorState) (p : Bool) (c n : Nat) (r : Bool),
      st.limit = 0 →
      (limitedAlloc st p c n r).2 ≠ AllocOutcome.limitFail ∧
      (limitedAlloc st p c n r).1.limitReached = st.limitReached) := by
  have hfree : ∀ (st : LimitedAllocatorState) (c : Nat) (r : Bool),
      (limitedAlloc st false c 0 r).1.used = st.used - min st.used c := by
    intro st c r
    unfold limitedAlloc
    simp only [if_pos rfl]
    rcases le_or_lt c st.used with h | h
    · simp [h, Nat.min_eq_right h]
    · have hn : ¬ c ≤ st.used := not_le.mpr h
      simp [hn, Nat.min_eq_left h.le]
  refine ⟨hfree, ?_, ?_, ?_⟩
  · intro st c r h
    rw [hfree st c r, Nat.min_eq_left h.le, Nat.sub_self]
  · intro st c r
    unfold limitedAlloc
    simp
  · intro st p c n r hl
    have hen : st.isLimitEnabled = false := by
      simp [LimitedAllocatorState.isLimitEnabled, hl]
    unfold limitedAlloc
    split_ifs <;> simp_all <;> split_ifs <;> simp_all

/-- C7 witness: freeing 32 bytes when only 8 are accounted leaves used = 0,
and with limit = 0 an allocation of SIZE_MAX bytes does not trip the
limit. -/
theorem limitedAlloc_used_no_underflow_witness :
    ((8 : Nat) < 32 ∧
      (limitedAlloc { used := 8, limit := 0 } false 32 0 true).1.used = 0) ∧
    ((limitedAlloc { used := 0, limit := 0 } false 0 SIZE_MAX_C true).2 ≠
        AllocOutcome.limitFail ∧
      (limitedAlloc { used := 0, limit := 0 } false 0 SIZE_MAX_C true).1.limitReached =
        false) :=
  ⟨⟨by decide, limitedAlloc_used_no_underflow.2.1 { used := 8, limit := 0 } 32 true
      (by decide)⟩,
   limitedAlloc_used_no_underflow.2.2.2 { used := 0, limit := 0 } false 0 SIZE_MAX_C
      true rfl⟩

/-- C5: for a sandbox whose preset is not Custom, require returns false and
leaves both the runtime and the sandbox (its loaded-library bag and its
environment included) exactly as they were. -/
theorem sandbox_require_nonCustom (libTables : LuaLib → List (String × LuaValue))
    (rt : RuntimeState) (sb : SandboxState) (lib : LuaLib)
    (h : sb.preset ≠ SandboxPreset.Custom) :
    LuaSandbox.require libTables rt sb lib = ((rt, sb), false) := by
  unfold LuaSandbox.require
  simp [h]

/-- C5 witness: a Minimal-preset sandbox refuses require(string) with no
effect. -/
theorem sandbox_require_nonCustom_witness :
    LuaSandbox.require zeroLibTables rtPlain sbMinimal LuaLib.string =
      ((rtPlain, sbMinimal), false) :=
  sandbox_require_nonCustom zeroLibTables rtPlain sbMinimal LuaLib.string (by decide)

/-- C10: for a runtime with the activated limited allocator, reset rebuilds
the allocator state with both sticky failure flags false (the designated
initializer in LuaRuntime::reset leaves them at their default values), so
clearing is not exclusive to resetErrorFlags; the limit value survives. -/
theorem runtime_reset_clears_error_flags (rt : RuntimeState)
    (traffic : List AllocCall) (h : rt.allocActivated = true) :
    (LuaRuntime.reset rt traffic).alloc.limitReached = false ∧
    (LuaRuntime.reset rt traffic).alloc.overflow = false ∧
    (LuaRuntime.reset rt traffic).alloc.limit = rt.alloc.limit := by
  unfold LuaRuntime.reset
  simp [h]

/-- C10 witness: a runtime with both flags set has them false after reset,
with its limit intact. -/
theorem runtime_reset_clears_error_flags_witness :
    rtFlagged.alloc.limitReached = true ∧ rtFlagged.alloc.overflow = true ∧
    (LuaRuntime.reset rtFlagged []).alloc.limitReached = false ∧
    (LuaRuntime.reset rtFlagged []).alloc.overflow = false ∧
    (LuaRuntime.reset rtFlagged []).alloc.limit = rtFlagged.alloc.limit :=
  ⟨rfl, rfl, (runtime_reset_clears_error_flags rtFlagged [] rfl).1,
   (runtime_reset_clears_error_flags rtFlagged [] rfl).2.1,
   (runtime_reset_clears_error_flags rtFlagged [] rfl).2.2⟩

/-- C6: evaluated at a concrete limited-allocator runtime, LuaRuntime::reset
preserves the allocator limit but does not clear the loadedLibs cache: after
require(base) then reset, the cache still holds base while the recreated
engine has no library opened, so a subsequent require(base) is a no-op and
base is never opened in the new engine — against the claim that the set of
opened libraries is empty after reset. -/
theorem runtime_reset_stale_loadedLibs :
    (LuaRuntime.reset (LuaRuntime.require zeroLibTables rtLimited LuaLib.base) []).openedLibs
        = [LuaLib.base] ∧
    (LuaRuntime.reset (LuaRuntime.require zeroLibTables rtLimited LuaLib.base) []).engineLibs
        = [] ∧
    (LuaRuntime.require zeroLibTables
        (LuaRuntime.reset (LuaRuntime.require zeroLibTables rtLimited LuaLib.base) [])
        LuaLib.base).engineLibs = [] ∧
    (LuaRuntime.reset (LuaRuntime.require zeroLibTables rtLimited LuaLib.base) []).alloc.limit
        = rtLimited.alloc.limit := by
  refine ⟨rfl, rfl, ?_, rfl⟩
  rfl

/-- C2: runFile returns a failing protected-function result whose message is
"<category>: <path>" for, in check order, a non-existent file, a file not
admitted by the allow-list, and a file starting with the bytecode
signature; a bytecode file is never executed whatever its name or the
allow-list; and execution happens exactly when all three checks pass. -/
theorem runFile_rejections :
    ∀ (cfg : SandboxFsConfig) (fsys : FileSys) (cwd p : FsPath),
      (fsExists fsys p = false →
        LuaSandbox.runFile cfg fsys cwd p =
          .fail ("Attempting to run a non-existent script: " ++ p.toPathString)) ∧
      (fsExists fsys p = true → LuaSandbox.isPathAllowed cfg cwd p = false →
        LuaSandbox.runFile cfg fsys cwd p =
          .fail ("Attempting to run a script outside the allowed path: "
            ++ p.toPathString)) ∧
      (fsExists fsys p = true → LuaSandbox.isPathAllowed cfg cwd p = true →
        lua.isBytecode fsys p = true →
        LuaSandbox.runFile cfg fsys cwd p =
          .fail ("Attempting to run precompiled Lua bytecode: " ++ p.toPathString)) ∧
      (lua.isBytecode fsys p = true →
        LuaSandbox.runFile cfg fsys cwd p ≠ RunFileResult.executed) ∧
      (LuaSandbox.runFile cfg fsys cwd p = RunFileResult.executed ↔
        fsExists fsys p = true ∧ LuaSandbox.isPathAllowed cfg cwd p = true ∧
          lua.isBytecode fsys p = false) := by
  intro cfg fsys cwd p
  refine ⟨?_, ?_, ?_, ?_, ?_⟩
  · intro hE
    simp [LuaSandbox.runFile, LuaSandbox.checkIfAllowedToLoad, hE]
  · intro hE hA
    simp [LuaSandbox.runFile, LuaSandbox.checkIfAllowedToLoad, hE, hA]
  · intro hE hA hB
    simp [LuaSandbox.runFile, LuaSandbox.checkIfAllowedToLoad, hE, hA, hB]
  · intro hB
    rcases hE : fsExists fsys p with _ | _ <;>
      rcases hA : LuaSandbox.isPathAllowed cfg cwd p with _ | _ <;>
      simp [LuaSandbox.runFile, LuaSandbox.checkIfAllowedToLoad, hE, hA, hB]
  · constructor
    · intro hX
      rcases hE : fsExists fsys p with _ | _ <;>
        rcases hA : LuaSandbox.isPathAllowed cfg cwd p with _ | _ <;>
        rcases hB : lua.isBytecode fsys p with _ | _ <;>
        simp_all [LuaSandbox.runFile, LuaSandbox.checkIfAllowedToLoad]
    · rintro ⟨hE, hA, hB⟩
      simp [LuaSandbox.runFile, LuaSandbox.checkIfAllowedToLoad, hE, hA, hB]

/-- C2 witness: with an empty file system, running /r/a.lua from the /r
policy fails with the non-existent-script message, and with a file system
mapping /r/a.lua to the bytecode signature it fails with the bytecode
message. -/
theorem runFile_rejections_witness :
    LuaSandbox.runFile cfgC1 (fun _ => Option.none) ⟨true, []⟩ ⟨true, ["r", "a.lua"]⟩
        = RunFileResult.fail ("Attempting to run a non-existent script: "
            ++ FsPath.toPathString ⟨true, ["r", "a.lua"]⟩) ∧
    LuaSandbox.runFile cfgC1 (fun _ => Option.some [27, 76, 117, 97, 0])
        ⟨true, []⟩ ⟨true, ["r", "a.lua"]⟩
        = RunFileResult.fail ("Attempting to run precompiled Lua bytecode: "
            ++ FsPath.toPathString ⟨true, ["r", "a.lua"]⟩) :=
  ⟨(runFile_rejections cfgC1 (fun _ => Option.none) ⟨true, []⟩
      ⟨true, ["r", "a.lua"]⟩).1 rfl,
   (runFile_rejections cfgC1 (fun _ => Option.some [27, 76, 117, 97, 0]) ⟨true, []⟩
      ⟨true, ["r", "a.lua"]⟩).2.2.1 rfl (by decide) (by decide)⟩

/-- C8 counterexample: at a context that is enabled and past its deadline
the hook raises, but the raised text is "Timeout guard: Script timed out.",
not "Script timed out"; likewise the missing-context text carries the
"Timeout guard: " prefix and a trailing period. -/
theorem defaultHook_text_counterexample :
    HookContext.isTimedOut { deadline := 0, enabled := true } 1 = true ∧
    lua.timeoutGuard.defaultHook (Option.some { deadline := 0, enabled := true }) 1 ≠
      Option.some "Script timed out" ∧
    lua.timeoutGuard.defaultHook Option.none 0 ≠
      Option.some "Unable to get hook context" := by
  refine ⟨by decide, ?_, ?_⟩ <;> decide

theorem arm_success_inv (sys : TGSystem) (i now limit : Nat)
    (h : (Watchdog.arm sys i now limit).2 = true) :
    ∃ w, sys.watchdogs[i]? = Option.some w ∧ w.running = false ∧ w.attached = true ∧
      sys.engine.slotOwner = Option.none ∧ sys.engine.hookSet = false := by
  unfold Watchdog.arm at h
  rcases hw : sys.watchdogs[i]? with _ | w <;> rw [hw] at h
  · simp at h
  · have h1 : w.running = false := by
      by_contra hc
      have hr : w.running = true := by simpa using hc
      simp [hr] at h
    have h2 : w.attached = true := by
      by_contra hc
      have ha : w.attached = false := by simpa using hc
      simp [h1, ha] at h
    have h3 : sys.engine.slotOwner = Option.none := by
      by_contra hc
      simp [h1, h2, hc] at h
    have h4 : sys.engine.hookSet = false := by
      by_contra hc
      have hh : sys.engine.hookSet = true := by simpa using hc
      simp [h1, h2, h3, hh] at h
    exact ⟨w, rfl, h1, h2, h3, h4⟩

theorem arm_success_eq (sys : TGSystem) (i now limit : Nat) (w : Watchdog)
    (hw : sys.watchdogs[i]? = Option.some w) (h1 : w.running = false)
    (h2 : w.attached = true) (h3 : sys.engine.slotOwner = Option.none)
    (h4 : sys.engine.hookSet = false) :
    Watchdog.arm sys i now limit =
      ({ engine := { slotOwner := Option.some i, hookSet := true },
         watchdogs := sys.watchdogs.set i
           { attached := w.attached, running := true,
             context := w.context.start now limit } }, true) := by
  unfold Watchdog.arm
  rw [hw]
  simp [h1, h2, h3, h4]

/-- C8 (amended): when the hook fires on an enabled context past its
deadline it raises exactly "Timeout guard: Script timed out."; when the
registry slot yields no context it raises exactly "Timeout guard: Unable to
get hook context."; an armed context not past the deadline raises nothing;
and a successful arm at time now with the given limit leaves the armed
watchdog holding the context {deadline := now + limit, enabled := true},
which is the context the slot serves to the hook. -/
theorem defaultHook_messages :
    (∀ (c : HookContext) (now : Nat), c.isTimedOut now = true →
      lua.timeoutGuard.defaultHook (Option.some c) now =
        Option.some "Timeout guard: Script timed out.") ∧
    (∀ now : Nat, lua.timeoutGuard.defaultHook Option.none now =
      Option.some "Timeout guard: Unable to get hook context.") ∧
    (∀ (c : HookContext) (now : Nat), c.isTimedOut now = false →
      lua.timeoutGuard.defaultHook (Option.some c) now = Option.none) ∧
    (∀ (sys : TGSystem) (i now limit : Nat),
      (Watchdog.arm sys i now limit).2 = true →
      ((Watchdog.arm sys i now limit).1.watchdogs[i]?.map (fun w => w.context)) =
        Option.some { deadline := now + limit, enabled := true } ∧
      (Watchdog.arm sys i now limit).1.engine.slotOwner = Option.some i) := by
  refine ⟨?_, ?_, ?_, ?_⟩
  · intro c now h
    simp [lua.timeoutGuard.defaultHook, h]
  · intro now
    rfl
  · intro c now h
    simp [lua.timeoutGuard.defaultHook, h]
  · intro sys i now limit h
    obtain ⟨w, hw, h1, h2, h3, h4⟩ := arm_success_inv sys i now limit h
    have hi : i < sys.watchdogs.length := (List.getElem?_eq_some.mp hw).1
    rw [arm_success_eq sys i now limit w hw h1 h2 h3 h4]
    constructor
    · simp [List.getElem?_set_eq_of_lt _ hi, HookContext.start]
    · rfl

/-- C8 witness: the amended statement evaluated at the context armed at
time 0 with a 5 unit limit, read at time 6. -/
theorem defaultHook_messages_witness :
    lua.timeoutGuard.defaultHook
        (Option.some (HookContext.start {} 0 5)) 6 =
      Option.some "Timeout guard: Script timed out." :=
  defaultHook_messages.1 (HookContext.start {} 0 5) 6 (by decide)

theorem LuaValue.isNil_eq_true {v : LuaValue} (h : v.isNil = true) : v = .nil := by
  cases v <;> simp [LuaValue.isNil] at h ⊢

/-- C9 (amended): every ResultOrErrorMsg returned by loadfile has exactly
one non-nil component; a ResultOrErrorMsg returned by require_file has
exactly one non-nil component except that both components are nil when the
loaded chunk executes successfully and returns no values (the source
returns a default-constructed pair) or returns nil as its first value. -/
theorem resultOrErrorMsg_shape :
    ∀ (cfg : SandboxFsConfig) (fsys : FileSys) (cwd : FsPath) (eng : ChunkEngine)
      (fn : Option FsPath),
      exactlyOneNonNil (LuaSandbox.loadfileReplace cfg fsys cwd eng fn) = true ∧
      (exactlyOneNonNil (LuaSandbox.requireFile cfg fsys cwd eng fn) = true ∨
        LuaSandbox.requireFile cfg fsys cwd eng fn = (LuaValue.nil, LuaValue.nil)) ∧
      (LuaSandbox.requireFile cfg fsys cwd eng fn = (LuaValue.nil, LuaValue.nil) →
        ∃ cid, LuaSandbox.loadfileReplace cfg fsys cwd eng fn =
            (LuaValue.chunk cid, LuaValue.nil) ∧
          (eng.callChunk cid = Except.ok [] ∨
            ∃ vs, eng.callChunk cid = Except.ok (LuaValue.nil :: vs))) := by
  intro cfg fsys cwd eng fn
  rcases fn with _ | fp
  · exact ⟨rfl, Or.inl rfl, by intro h; simp [LuaSandbox.requireFile,
      LuaSandbox.loadfileReplace] at h⟩
  · rcases hP : LuaSandbox.checkIfAllowedToLoad cfg fsys cwd
        (LuaSandbox.toScriptPath cfg fp) with ⟨ok, msg⟩
    rcases ok with _ | _
    · have hLF : LuaSandbox.loadfileReplace cfg fsys cwd eng (Option.some fp) =
          (LuaValue.nil, LuaValue.str msg) := by
        simp [LuaSandbox.loadfileReplace, hP]
      have hRF : LuaSandbox.requireFile cfg fsys cwd eng (Option.some fp) =
          (LuaValue.nil, LuaValue.str msg) := by
        simp [LuaSandbox.requireFile, hLF]
      rw [hLF, hRF]
      exact ⟨rfl, Or.inl rfl, by intro h; simp at h⟩
    · rcases hL : eng.loadFile (LuaSandbox.toScriptPath cfg fp) with e | cid
      · have hLF : LuaSandbox.loadfileReplace cfg fsys cwd eng (Option.some fp) =
            (LuaValue.nil, LuaValue.str e) := by
          simp [LuaSandbox.loadfileReplace, hP, hL]
        have hRF : LuaSandbox.requireFile cfg fsys cwd eng (Option.some fp) =
            (LuaValue.nil, LuaValue.str e) := by
          simp [LuaSandbox.requireFile, hLF]
        rw [hLF, hRF]
        exact ⟨rfl, Or.inl rfl, by intro h; simp at h⟩
      · have hLF : LuaSandbox.loadfileReplace cfg fsys cwd eng (Option.some fp) =
            (LuaValue.chunk cid, LuaValue.nil) := by
          simp [LuaSandbox.loadfileReplace, hP, hL]
        rcases hC : eng.callChunk cid with e | vals
        · have hRF : LuaSandbox.requireFile cfg fsys cwd eng (Option.some fp) =
              (LuaValue.nil, LuaValue.str e) := by
            simp [LuaSandbox.requireFile, hLF, hC]
          rw [hLF, hRF]
          exact ⟨rfl, Or.inl rfl, by intro h; simp at h⟩
        · rcases vals with _ | ⟨v, vs⟩
          · have hRF : LuaSandbox.requireFile cfg fsys cwd eng (Option.some fp) =
                (LuaValue.nil, LuaValue.nil) := by
              simp [LuaSandbox.requireFile, hLF, hC]
            rw [hLF, hRF]
            exact ⟨rfl, Or.inr rfl, fun _ => ⟨cid, rfl, Or.inl hC⟩⟩
          · have hRF : LuaSandbox.requireFile cfg fsys cwd eng (Option.some fp) =
                (v, LuaValue.nil) := by
              simp [LuaSandbox.requireFile, hLF, hC]
            rw [hLF, hRF]
            rcases hv : v.isNil with _ | _
            · refine ⟨rfl, Or.inl ?_, ?_⟩
              · show (v.isNil != LuaValue.nil.isNil) = true
                rw [hv]
                rfl
              · intro h
                have : v = LuaValue.nil := by
                  rw [Prod.mk.injEq] at h
                  exact h.1
                rw [this] at hv
                simp [LuaValue.isNil] at hv
            · have hvn : v = LuaValue.nil := LuaValue.isNil_eq_true hv
              subst hvn
              exact ⟨rfl, Or.inr rfl,
                fun _ => ⟨cid, rfl, Or.inr ⟨vs, hC⟩⟩⟩

/-- C9 counterexample: at the concrete policy /scripts with the admitted,
existing, non-bytecode file /scripts/m.lua and an engine whose chunk
returns no values, require_file returns a pair whose components are both
nil — not exactly one non-nil component. -/
theorem requireFile_both_nil_counterexample :
    LuaSandbox.requireFile cfgC9 fsysC9 ⟨true, []⟩ engC9 (Option.some fileC9) =
      (LuaValue.nil, LuaValue.nil) ∧
    exactlyOneNonNil
      (LuaSandbox.requireFile cfgC9 fsysC9 ⟨true, []⟩ engC9 (Option.some fileC9)) =
      false := by
  constructor
  · rfl
  · rfl

/-- C9 witness: at the same concrete inputs the loadfile component of the
amended statement gives exactly one non-nil component. -/
theorem resultOrErrorMsg_shape_witness :
    exactlyOneNonNil
      (LuaSandbox.loadfileReplace cfgC9 fsysC9 ⟨true, []⟩ engC9
        (Option.some fileC9)) = true :=
  (resultOrErrorMsg_shape cfgC9 fsysC9 ⟨true, []⟩ engC9 (Option.some fileC9)).1

theorem armedIn_set_ne (sys : TGSystem) (i j : Nat) (w' : Watchdog)
    (hij : j ≠ i) :
    armedIn { sys with watchdogs := sys.watchdogs.set i w' } j = armedIn sys j := by
  unfold armedIn
  rw [List.getElem?_set_ne (fun hc => hij hc.symm)]

theorem armedIn_set_eq (sys : TGSystem) (i : Nat) (w' : Watchdog)
    (hi : i < sys.watchdogs.length) :
    armedIn { sys with watchdogs := sys.watchdogs.set i w' } i = w'.running := by
  unfold armedIn
  rw [List.getElem?_set_self hi]

theorem arm_fail_of (sys : TGSystem) (i now limit : Nat) (w : Watchdog)
    (hw : sys.watchdogs[i]? = Option.some w)
    (hfail : w.running = true ∨ w.attached = false ∨
      ¬ sys.engine.slotOwner = Option.none ∨ sys.engine.hookSet = true) :
    Watchdog.arm sys i now limit = (sys, false) := by
  unfold Watchdog.arm
  rw [hw]
  rcases hfail with h | h | h | h
  · simp [h]
  · by_cases hr : w.running = true <;> simp [hr, h]
  · by_cases hr : w.running = true <;> by_cases ha : w.attached = true <;>
      simp [hr, ha, h]
  · by_cases hr : w.running = true <;> by_cases ha : w.attached = true <;>
      by_cases hs : sys.engine.slotOwner = Option.none <;> simp [hr, ha, hs, h]

theorem arm_none_eq (sys : TGSystem) (i now limit : Nat)
    (hw : sys.watchdogs[i]? = Option.none) :
    Watchdog.arm sys i now limit = (sys, false) := by
  unfold Watchdog.arm
  rw [hw]

theorem arm_cases (sys : TGSystem) (i now limit : Nat) :
    Watchdog.arm sys i now limit = (sys, false) ∨
    ∃ w, sys.watchdogs[i]? = Option.some w ∧ w.running = false ∧ w.attached = true ∧
      sys.engine.slotOwner = Option.none ∧ sys.engine.hookSet = false ∧
      Watchdog.arm sys i now limit =
        ({ engine := { slotOwner := Option.some i, hookSet := true },
           watchdogs := sys.watchdogs.set i
             { attached := w.attached, running := true,
               context := w.context.start now limit } }, true) := by
  rcases hw : sys.watchdogs[i]? with _ | w
  · exact Or.inl (arm_none_eq sys i now limit hw)
  · by_cases h1 : w.running = true
    · exact Or.inl (arm_fail_of sys i now limit w hw (Or.inl h1))
    · by_cases h2 : w.attached = true
      · by_cases h3 : sys.engine.slotOwner = Option.none
        · by_cases h4 : sys.engine.hookSet = true
          · exact Or.inl (arm_fail_of sys i now limit w hw
              (Or.inr (Or.inr (Or.inr h4))))
          · refine Or.inr ⟨w, rfl, by simpa using h1, h2, h3, by simpa using h4, ?_⟩
            exact arm_success_eq sys i now limit w hw (by simpa using h1) h2 h3
              (by simpa using h4)
        · exact Or.inl (arm_fail_of sys i now limit w hw (Or.inr (Or.inr (Or.inl h3))))
      · exact Or.inl (arm_fail_of sys i now limit w hw
          (Or.inr (Or.inl (by simpa using h2))))

theorem slotInv_set_of_running_eq (sys : TGSystem) (i : Nat) (w w' : Watchdog)
    (hw : sys.watchdogs[i]? = Option.some w) (hr : w'.running = w.running)
    (h : SlotInv sys) :
    SlotInv { sys with watchdogs := sys.watchdogs.set i w' } := by
  intro j hj
  have hi : i < sys.watchdogs.length := (List.getElem?_eq_some.mp hw).1
  have harm : armedIn sys j = true := by
    by_cases hij : j = i
    · subst hij
      rw [armedIn_set_eq sys j w' hi, hr] at hj
      unfold armedIn
      rw [hw]
      exact hj
    · rw [armedIn_set_ne sys i j w' hij] at hj
      exact hj
  exact h j harm

theorem slotInv_set_not_running (sys : TGSystem) (i : Nat) (w' : Watchdog)
    (hr : w'.running = false) (h : SlotInv sys) :
    SlotInv { sys with watchdogs := sys.watchdogs.set i w' } := by
  intro j hj
  by_cases hij : j = i
  · subst hij
    rcases hlt : decide (j < sys.watchdogs.length) with _ | _
    · unfold armedIn at hj
      rw [List.getElem?_set_self' ] at hj
      rw [List.getElem?_eq_none (by simpa using hlt)] at hj
      simp at hj
    · rw [armedIn_set_eq sys j w' (by simpa using hlt), hr] at hj
      simp at hj
  · rw [armedIn_set_ne sys i j w' hij] at hj
    exact h j hj

theorem disarm_cases (sys : TGSystem) (i : Nat) :
    Watchdog.disarm sys i = sys ∨
    ∃ w, sys.watchdogs[i]? = Option.some w ∧
      ((¬ (w.attached = true ∧ w.running = true) ∧
         Watchdog.disarm sys i =
           { sys with watchdogs := sys.watchdogs.set i { w with context := {}, running := false } }) ∨
       (w.attached = true ∧ w.running = true ∧
         Watchdog.disarm sys i =
           { engine := { slotOwner := Option.none, hookSet := false },
             watchdogs := sys.watchdogs.set i { w with context := {}, running := false } })) := by
  rcases hw : sys.watchdogs[i]? with _ | w
  · left
    unfold Watchdog.disarm
    rw [hw]
  · right
    refine ⟨w, rfl, ?_⟩
    by_cases ha : w.attached = true <;> by_cases hr : w.running = true
    · right
      refine ⟨ha, hr, ?_⟩
      unfold Watchdog.disarm
      rw [hw]
      simp [ha, hr]
    · left
      refine ⟨by simp [hr], ?_⟩
      unfold Watchdog.disarm
      rw [hw]
      simp [ha, hr]
    · left
      refine ⟨by simp [ha], ?_⟩
      unfold Watchdog.disarm
      rw [hw]
      simp [ha, hr]
    · left
      refine ⟨by simp [ha], ?_⟩
      unfold Watchdog.disarm
      rw [hw]
      simp [ha, hr]

theorem slotInv_disarm (sys : TGSystem) (i : Nat) (h : SlotInv sys) :
    SlotInv (Watchdog.disarm sys i) := by
  rcases disarm_cases sys i with hEq | ⟨w, hw, (⟨hna, hEq⟩ | ⟨ha, hr, hEq⟩)⟩
  · rw [hEq]; exact h
  · rw [hEq]
    exact slotInv_set_not_running sys i _ rfl h
  · rw [hEq]
    intro j hj
    by_cases hij : j = i
    · have hi : i < sys.watchdogs.length := (List.getElem?_eq_some.mp hw).1
      rw [hij] at hj
      simp only [armedIn] at hj
      rw [List.getElem?_set_self hi] at hj
      simp at hj
    · have harm : armedIn sys j = true := by
        simp only [armedIn] at hj ⊢
        rw [List.getElem?_set_ne (fun hc => hij hc.symm)] at hj
        exact hj
      have hsj := h j harm
      have hsi := h i (by unfold armedIn; rw [hw]; exact hr)
      rw [hsj] at hsi
      have : j = i := by injection hsi
      exact absurd this hij

theorem rearm_cases (sys : TGSystem) (i now limit : Nat) :
    (Watchdog.rearm sys i now limit).1 = sys ∨
    ∃ w, sys.watchdogs[i]? = Option.some w ∧ w.running = true ∧
      (Watchdog.rearm sys i now limit).1 =
        { sys with watchdogs := sys.watchdogs.set i { w with context := w.context.start now limit } } := by
  rcases hw : sys.watchdogs[i]? with _ | w
  · left
    unfold Watchdog.rearm
    rw [hw]
  · by_cases hr : w.running = true
    · right
      refine ⟨w, rfl, hr, ?_⟩
      unfold Watchdog.rearm
      rw [hw]
      simp [hr]
    · left
      unfold Watchdog.rearm
      rw [hw]
      simp [hr]

theorem slotInv_rearm (sys : TGSystem) (i now limit : Nat) (h : SlotInv sys) :
    SlotInv (Watchdog.rearm sys i now limit).1 := by
  rcases rearm_cases sys i now limit with hEq | ⟨w, hw, hr, hEq⟩
  · rw [hEq]; exact h
  · rw [hEq]
    exact slotInv_set_of_running_eq sys i w _ hw rfl h

theorem slotInv_detach (sys : TGSystem) (i : Nat) (h : SlotInv sys) :
    SlotInv (Watchdog.detach sys i) := by
  have h1 := slotInv_disarm sys i h
  unfold Watchdog.detach
  rcases hw : (Watchdog.disarm sys i).watchdogs[i]? with _ | w
  · exact h1
  · exact slotInv_set_of_running_eq _ i w _ hw rfl h1

theorem slotInv_attach (sys : TGSystem) (i : Nat) (force : Bool) (h : SlotInv sys) :
    SlotInv (Watchdog.attach sys i force).1 := by
  unfold Watchdog.attach
  split
  · exact h
  · rename_i w hw
    split_ifs with hf hr
    · have h1 := slotInv_detach sys i h
      split
      · exact h1
      · rename_i w2 hd
        exact slotInv_set_of_running_eq _ i w2 _ hd rfl h1
    · exact h
    · exact slotInv_set_of_running_eq sys i w _ hw rfl h

theorem slotInv_stepOp (sys : TGSystem) (op : TGOp) (h : SlotInv sys) :
    SlotInv (stepOp sys op) := by
  cases op with
  | arm i now limit =>
    rcases arm_cases sys i now limit with hEq | ⟨w, hw, h1, h2, h3, h4, hEq⟩
    · simp only [stepOp, hEq]
      exact h
    · simp only [stepOp, hEq]
      intro j hj
      by_cases hij : j = i
      · simp [hij]
      · have harm : armedIn sys j = true := by
          simp only [armedIn] at hj ⊢
          rw [List.getElem?_set_ne (fun hc => hij hc.symm)] at hj
          exact hj
        have hsj := h j harm
        rw [h3] at hsj
        exact absurd hsj (by simp)
  | rearm i now limit => exact slotInv_rearm sys i now limit h
  | disarm i => exact slotInv_disarm sys i h
  | attach i force => exact slotInv_attach sys i force h
  | detach i => exact slotInv_detach sys i h

theorem slotInv_runOps_of (ops : List TGOp) (sys : TGSystem) (h : SlotInv sys) :
    SlotInv (runOps sys ops) := by
  induction ops generalizing sys with
  | nil => exact h
  | cons o os ih =>
    simp only [runOps, List.foldl_cons] at *
    exact ih _ (slotInv_stepOp sys o h)

theorem slotInv_runOps (n : Nat) (ops : List TGOp) :
    SlotInv (runOps (initSys n) ops) := by
  refine slotInv_runOps_of ops (initSys n) ?_
  intro j hj
  unfold armedIn initSys at hj
  rcases hn : decide (j < n) with _ | _
  · rw [List.getElem?_eq_none (by simpa using hn)] at hj
    simp at hj
  · rw [List.getElem?_replicate_of_lt (by simpa using hn)] at hj
    simp [wdInit] at hj

/-- C4: an arm call on a watchdog that is already armed, not attached, or
whose engine has a non-empty registry slot or an installed hook, returns
false with no side effect (the system is returned unchanged); in any state
reached from a clean engine by arm / rearm / disarm / attach / detach
operations, while some watchdog is armed every arm call on that engine
returns false (so at most one arm succeeds between two disarms); and a
GuardedScope constructed on an already-armed watchdog is inert: it is
disabled, its destructor does not disarm, and its timedOut() is false. -/
theorem watchdog_arm_single_owner :
    (∀ (sys : TGSystem) (i now limit : Nat) (w : Watchdog),
      sys.watchdogs[i]? = Option.some w →
      (w.running = true ∨ w.attached = false ∨
        ¬ sys.engine.slotOwner = Option.none ∨ sys.engine.hookSet = true) →
      Watchdog.arm sys i now limit = (sys, false)) ∧
    (∀ (n : Nat) (ops : List TGOp) (j i now limit : Nat),
      armedIn (runOps (initSys n) ops) j = true →
      (Watchdog.arm (runOps (initSys n) ops) i now limit).2 = false) ∧
    (∀ (sys : TGSystem) (i now limit now2 : Nat) (w : Watchdog),
      sys.watchdogs[i]? = Option.some w → w.running = true →
      (mkGuardedScope sys i now limit).1 = sys ∧
      (mkGuardedScope sys i now limit).2 = ⟨Option.none⟩ ∧
      GuardedScope.destruct (mkGuardedScope sys i now limit).1
        (mkGuardedScope sys i now limit).2 = sys ∧
      GuardedScope.timedOut (mkGuardedScope sys i now limit).1
        (mkGuardedScope sys i now limit).2 now2 = false) := by
  refine ⟨fun sys i now limit w hw hf => arm_fail_of sys i now limit w hw hf, ?_, ?_⟩
  · intro n ops j i now limit hj
    have hslot := slotInv_runOps n ops j hj
    rcases hw : (runOps (initSys n) ops).watchdogs[i]? with _ | w
    · rw [arm_none_eq _ i now limit hw]
    · rw [arm_fail_of _ i now limit w hw
        (Or.inr (Or.inr (Or.inl (by rw [hslot]; simp))))]
  · intro sys i now limit now2 w hw hr
    have hfail := arm_fail_of sys i now limit w hw (Or.inl hr)
    have hmk : mkGuardedScope sys i now limit = (sys, ⟨Option.none⟩) := by
      unfold mkGuardedScope
      rw [hfail]
      rfl
    refine ⟨by rw [hmk], by rw [hmk], ?_, ?_⟩
    · rw [hmk]
      rfl
    · rw [hmk]
      rfl

/-- C4 witness: from a clean two-watchdog engine, arming watchdog 0
succeeds; then arming watchdog 1 fails, and a GuardedScope taken on the
armed watchdog 0 is disabled. -/
theorem watchdog_arm_single_owner_witness :
    armedIn (runOps (initSys 2) [TGOp.arm 0 0 5]) 0 = true ∧
    (Watchdog.arm (runOps (initSys 2) [TGOp.arm 0 0 5]) 1 0 5).2 = false ∧
    (mkGuardedScope (runOps (initSys 2) [TGOp.arm 0 0 5]) 0 1 5).2 =
      ⟨Option.none⟩ :=
  ⟨by decide,
   watchdog_arm_single_owner.2.1 2 [TGOp.arm 0 0 5] 0 1 0 5 (by decide),
   (watchdog_arm_single_owner.2.2 (runOps (initSys 2) [TGOp.arm 0 0 5]) 0 1 5 0
      { attached := true, running := true, context := ⟨5, true⟩ }
      (by decide) (by decide)).2.1⟩

theorem lexicallyNormal_abs (p : FsPath) : p.lexicallyNormal.abs = p.abs := by
  simp only [FsPath.lexicallyNormal]
  split_ifs with h1 h2
  · rfl
  · simp only [Bool.and_eq_true, Bool.not_eq_true'] at h2
    exact h2.1.symm
  · rfl

theorem normalize_abs (p : FsPath) : (fs_utils.normalize p).abs = p.abs :=
  lexicallyNormal_abs p

theorem abs_not_empty (p : FsPath) (h : p.abs = true) : p.isEmptyPath = false := by
  simp [FsPath.isEmptyPath, h]

theorem foldl_normStep_names (ab : Bool) (l : List String) (h : PlainNames l) :
    ∀ s : List String, l.foldl (normStep ab) s = l.reverse ++ s := by
  induction l with
  | nil => intro s; simp
  | cons x xs ih =>
    intro s
    have hx := h x (by simp)
    have hxs : PlainNames xs := fun y hy => h y (by simp [hy])
    have hstep : normStep ab s x = x :: s := by
      unfold normStep
      rw [if_neg hx.1, if_neg hx.2]
    rw [List.foldl_cons, hstep, ih hxs (x :: s)]
    simp

theorem foldl_normStep_dots (k : Nat) :
    ∀ m : Nat, (List.replicate k "..").foldl (normStep false) (List.replicate m "..") =
      List.replicate (k + m) ".." := by
  induction k with
  | zero => intro m; simp
  | succ k ih =>
    intro m
    rw [List.replicate_succ, List.foldl_cons]
    have hstep : normStep false (List.replicate m "..") ".." =
        List.replicate (m + 1) ".." := by
      unfold normStep
      rcases m with _ | m'
      · simp
      · rw [List.replicate_succ]
        simp [List.replicate_succ]
    rw [hstep, ih (m + 1)]
    congr 1
    omega

theorem normComps_fixed (ab : Bool) (k : Nat) (names : List String)
    (h : PlainNames names) (hab : ab = true → k = 0) :
    normComps ab (List.replicate k ".." ++ names) = List.replicate k ".." ++ names := by
  unfold normComps
  rw [List.foldl_append]
  rcases hb : ab with _ | _
  · have hdots := foldl_normStep_dots k 0
    simp only [List.replicate_zero] at hdots
    rw [hdots]
    rw [foldl_normStep_names false names h (List.replicate (k + 0) "..")]
    simp
  · have hk : k = 0 := hab hb
    subst hk
    simp only [List.replicate_zero, List.nil_append, List.foldl_nil]
    rw [foldl_normStep_names true names h []]
    simp

theorem goodStack_foldl (ab : Bool) (l : List String) :
    ∀ s : List String,
      (∃ front k, s = front ++ List.replicate k ".." ∧ PlainNames front ∧
        (ab = true → k = 0)) →
      ∃ front k, l.foldl (normStep ab) s = front ++ List.replicate k ".." ∧
        PlainNames front ∧ (ab = true → k = 0) := by
  induction l with
  | nil => intro s hs; exact hs
  | cons c cs ih =>
    intro s hs
    rw [List.foldl_cons]
    refine ih (normStep ab s c) ?_
    obtain ⟨front, k, hEq, hPlain, hk⟩ := hs
    subst hEq
    by_cases hc1 : c = "."
    · exact ⟨front, k, by unfold normStep; rw [if_pos hc1], hPlain, hk⟩
    by_cases hc2 : c = ".."
    · rcases hf : front with _ | ⟨f0, fr⟩
      · rcases hk2 : k with _ | k'
        · refine ⟨[], if ab then 0 else 1, ?_, by intro x hx; simp at hx, ?_⟩
          · unfold normStep
            rw [if_neg hc1, if_pos hc2]
            rcases hb : ab with _ | _ <;> simp
          · intro hb
            simp [hb]
        · refine ⟨[], if ab then k' + 1 else k' + 2, ?_, by intro x hx; simp at hx, ?_⟩
          · unfold normStep
            rw [if_neg hc1, if_pos hc2]
            rw [List.replicate_succ]
            rcases hb : ab with _ | _
            · simp [List.replicate_succ]
            · exact absurd (hk hb) (by simp [hk2])
          · intro hb
            exact absurd (hk hb) (by simp [hk2])
      · refine ⟨fr, k, ?_, fun y hy => hPlain y (by simp [hf, hy]), hk⟩
        unfold normStep
        rw [if_neg hc1, if_pos hc2]
        have hf0 : f0 ≠ ".." := (hPlain f0 (by simp [hf])).2
        simp only [List.cons_append]
        rw [if_neg hf0]
    · refine ⟨c :: front, k, ?_, ?_, hk⟩
      · unfold normStep
        rw [if_neg hc1, if_neg hc2]
        simp
      · intro y hy
        rcases List.mem_cons.mp hy with hy | hy
        · subst hy
          exact ⟨hc1, hc2⟩
        · exact hPlain y hy

theorem normComps_normalized (ab : Bool) (cs : List String) :
    ∃ k names, normComps ab cs = List.replicate k ".." ++ names ∧
      PlainNames names ∧ (ab = true → k = 0) := by
  obtain ⟨front, k, hEq, hPlain, hk⟩ :=
    goodStack_foldl ab cs []
      ⟨[], 0, by simp, by intro x hx; simp at hx, fun _ => rfl⟩
  refine ⟨k, front.reverse, ?_, fun y hy => hPlain y (List.mem_reverse.mp hy), hk⟩
  unfold normComps
  rw [hEq, List.reverse_append, List.reverse_replicate]

theorem normComps_idem (ab : Bool) (cs : List String) :
    normComps ab (normComps ab cs) = normComps ab cs := by
  obtain ⟨k, names, h, hn, hab⟩ := normComps_normalized ab cs
  rw [h, normComps_fixed ab k names hn hab]

theorem lexicallyNormal_idem (p : FsPath) :
    p.lexicallyNormal.lexicallyNormal = p.lexicallyNormal := by
  by_cases h1 : p.isEmptyPath = true
  · have hq : p.lexicallyNormal = p := by
      simp only [FsPath.lexicallyNormal]
      rw [if_pos h1]
    rw [hq, hq]
  · have hid := normComps_idem p.abs p.comps
    by_cases h2 : (!p.abs && (normComps p.abs p.comps).isEmpty) = true
    · have hq : p.lexicallyNormal = ⟨false, ["."]⟩ := by
        simp only [FsPath.lexicallyNormal]
        rw [if_neg h1, if_pos h2]
      rw [hq]
      decide
    · have hq : p.lexicallyNormal = ⟨p.abs, normComps p.abs p.comps⟩ := by
        simp only [FsPath.lexicallyNormal]
        rw [if_neg h1, if_neg h2]
      rw [hq]
      have hne : (FsPath.mk p.abs (normComps p.abs p.comps)).isEmptyPath = false := by
        rcases hb : p.abs with _ | _
        · simp only [FsPath.isEmptyPath, hb, Bool.not_false, Bool.true_and]
          rw [hb] at h2
          simpa using h2
        · simp [FsPath.isEmptyPath, hb]
      simp only [FsPath.lexicallyNormal]
      rw [if_neg (by simp [hne])]
      simp only [hid]
      rw [if_neg (by simpa using h2)]

theorem fs_normalize_idem (p : FsPath) :
    fs_utils.normalize (fs_utils.normalize p) = fs_utils.normalize p :=
  lexicallyNormal_idem p

theorem wf_allowScriptPath (cfg : SandboxFsConfig) (p : FsPath) (h : WfConfig cfg) :
    WfConfig (LuaSandbox.allowScriptPath cfg p).1 := by
  unfold LuaSandbox.allowScriptPath
  split_ifs with h1 h2 h3
  · exact h
  · exact h
  · -- relative path: the stored entry is normalize (root / p)
    simp only [Bool.or_eq_true, not_or, Bool.not_eq_true] at h1
    obtain ⟨hroot, hp⟩ := h1
    show WfConfig ⟨cfg.scriptsRoot, cfg.allowedScriptPaths ++ [fs_utils.normalize (cfg.scriptsRoot.join p)]⟩
    refine ⟨?_, ?_, ?_⟩
    · intro hcontra
      rw [hroot] at hcontra
      exact absurd hcontra (by simp)
    · intro _
      exact h.2.1 hroot
    · intro a ha
      simp only [List.mem_append, List.mem_singleton] at ha
      rcases ha with ha | ha
      · exact h.2.2 a ha
      · subst ha
        refine ⟨?_, fs_normalize_idem _⟩
        rw [normalize_abs]
        simp [FsPath.join, h.2.1 hroot]
  · -- absolute path: the stored entry is normalize p
    simp only [Bool.or_eq_true, not_or, Bool.not_eq_true] at h1
    obtain ⟨hroot, hp⟩ := h1
    have hpa : p.abs = true := by
      rcases hb : p.abs with _ | _
      · exact absurd (by simp [hb] : (!p.abs) = true) h3
      · rfl
    show WfConfig ⟨cfg.scriptsRoot, cfg.allowedScriptPaths ++ [fs_utils.normalize p]⟩
    refine ⟨?_, ?_, ?_⟩
    · intro hcontra
      rw [hroot] at hcontra
      exact absurd hcontra (by simp)
    · intro _
      exact h.2.1 hroot
    · intro a ha
      simp only [List.mem_append, List.mem_singleton] at ha
      rcases ha with ha | ha
      · exact h.2.2 a ha
      · subst ha
        refine ⟨?_, fs_normalize_idem _⟩
        rw [normalize_abs]
        exact hpa

theorem wf_setPathsForScripts (root : FsPath) (allowed : List FsPath) :
    WfConfig (LuaSandbox.setPathsForScripts root allowed) := by
  simp only [LuaSandbox.setPathsForScripts]
  have hfold : ∀ (l : List FsPath) (cfg : SandboxFsConfig), WfConfig cfg →
      WfConfig (l.foldl (fun c q => (LuaSandbox.allowScriptPath c q).1) cfg) := by
    intro l
    induction l with
    | nil => intro cfg hc; exact hc
    | cons x xs ih =>
      intro cfg hc
      rw [List.foldl_cons]
      exact ih _ (wf_allowScriptPath cfg x hc)
  refine hfold allowed _ ⟨fun _ => rfl, ?_, by intro a ha; simp at ha⟩
  intro hne
  split_ifs at hne ⊢ with hc
  · rw [normalize_abs]
    exact (Bool.and_eq_true _ _ |>.mp hc).2
  · simp [FsPath.isEmptyPath] at hne

theorem list_any_congr {α : Type} (l : List α) (f g : α → Bool)
    (h : ∀ a ∈ l, f a = g a) : l.any f = l.any g := by
  induction l with
  | nil => rfl
  | cons x xs ih =>
    simp only [List.any_cons]
    rw [h x (by simp), ih (fun a ha => h a (by simp [ha]))]

theorem startsWith_norm_entry (cwd X a : FsPath) (hX : X.abs = true)
    (ha : a.abs = true) (hna : fs_utils.normalize a = a) :
    fs_utils.startsWith cwd X a =
      (pathElems a).isPrefixOf (pathElems (fs_utils.normalize X)) := by
  unfold fs_utils.startsWith
  rw [if_neg (by simp [abs_not_empty a ha])]
  unfold fsAbsolute
  rw [if_pos ha, if_pos hX, hna]

theorem normalize_mk_append_congr (ab : Bool) (pre l1 l2 : List String)
    (hf : ∀ s : List String,
      List.foldl (normStep ab) s l1 = List.foldl (normStep ab) s l2)
    (h1 : l1.isEmpty = false) (h2 : l2.isEmpty = false) :
    fs_utils.normalize ⟨ab, pre ++ l1⟩ = fs_utils.normalize ⟨ab, pre ++ l2⟩ := by
  have hcomps : normComps ab (pre ++ l1) = normComps ab (pre ++ l2) := by
    unfold normComps
    rw [List.foldl_append, List.foldl_append, hf]
  have hres : ∀ l : List String, l.isEmpty = false →
      fs_utils.normalize ⟨ab, pre ++ l⟩ =
        (if (!ab && (normComps ab (pre ++ l)).isEmpty) = true
         then (⟨false, ["."]⟩ : FsPath) else ⟨ab, normComps ab (pre ++ l)⟩) := by
    intro l hl
    unfold fs_utils.normalize FsPath.lexicallyNormal
    rw [if_neg (by
      simp [FsPath.isEmptyPath, List.isEmpty_iff, List.append_eq_nil]
      intro _ _ hc
      rw [hc] at hl
      simp at hl)]
  rw [hres l1 h1, hres l2 h2, hcomps]

theorem foldl_dotdot_example (ab : Bool) (s : List String) :
    List.foldl (normStep ab) s ["a", "b", "..", "c"] =
      List.foldl (normStep ab) s ["a", "c"] := rfl

/-- C1 (amended): for every non-empty path p, the admission predicate is
true iff some entry of the allow-list is a component-aligned path-segment
prefix of the lexical normalization of p (a relative p being first joined
to the sandbox root), over the well-formed policies reachable through
setPathsForScripts / allowScriptPath; the empty path is always rejected;
when the allow-list is empty every path is rejected; and "a/b/../c" is
admitted iff "a/c" is. -/
theorem isPathAllowed_admission :
    (∀ (cfg : SandboxFsConfig) (cwd p : FsPath), WfConfig cfg →
      p.isEmptyPath = false →
      LuaSandbox.isPathAllowed cfg cwd p = specAdmitted cfg p) ∧
    (∀ (cfg : SandboxFsConfig) (cwd p : FsPath), cfg.allowedScriptPaths = [] →
      LuaSandbox.isPathAllowed cfg cwd p = false) ∧
    (∀ (cfg : SandboxFsConfig) (cwd p : FsPath), p.isEmptyPath = true →
      LuaSandbox.isPathAllowed cfg cwd p = false) ∧
    (∀ (root : FsPath) (allowed : List FsPath) (cwd : FsPath),
      LuaSandbox.isPathAllowed (LuaSandbox.setPathsForScripts root allowed) cwd
          ⟨false, ["a", "b", "..", "c"]⟩ =
        LuaSandbox.isPathAllowed (LuaSandbox.setPathsForScripts root allowed) cwd
          ⟨false, ["a", "c"]⟩) := by
  have hgen : ∀ (cfg : SandboxFsConfig) (cwd : FsPath),
      LuaSandbox.isPathAllowed cfg cwd ⟨false, ["a", "b", "..", "c"]⟩ =
        LuaSandbox.isPathAllowed cfg cwd ⟨false, ["a", "c"]⟩ := by
    intro cfg cwd
    unfold LuaSandbox.isPathAllowed
    rw [if_neg (by decide : ¬(FsPath.isEmptyPath ⟨false, ["a", "b", "..", "c"]⟩ = true)),
        if_neg (by decide : ¬(FsPath.isEmptyPath ⟨false, ["a", "c"]⟩ = true)),
        if_pos (by decide : (!(FsPath.abs ⟨false, ["a", "b", "..", "c"]⟩)) = true),
        if_pos (by decide : (!(FsPath.abs ⟨false, ["a", "c"]⟩)) = true)]
    by_cases hroot : cfg.scriptsRoot.isEmptyPath = true
    · rw [if_pos hroot, if_pos hroot]
    · rw [if_neg hroot, if_neg hroot]
      unfold fs_utils.startsWithAny
      refine list_any_congr _ _ _ (fun a ha => ?_)
      unfold fs_utils.startsWith
      by_cases hae : a.isEmptyPath = true
      · rw [if_pos hae, if_pos hae]
      · rw [if_neg hae, if_neg hae]
        have hkey :
            fs_utils.normalize (fsAbsolute cwd
                (cfg.scriptsRoot.join ⟨false, ["a", "b", "..", "c"]⟩)) =
              fs_utils.normalize (fsAbsolute cwd
                (cfg.scriptsRoot.join ⟨false, ["a", "c"]⟩)) := by
          unfold FsPath.join fsAbsolute
          rcases hb : cfg.scriptsRoot.abs with _ | _
          · rw [if_neg (by simp), if_neg (by simp)]
            unfold FsPath.join
            simp only [← List.append_assoc]
            exact normalize_mk_append_congr cwd.abs
              (cwd.comps ++ cfg.scriptsRoot.comps) _ _
              (foldl_dotdot_example cwd.abs) (by decide) (by decide)
          · rw [if_pos (by simp), if_pos (by simp)]
            exact normalize_mk_append_congr true cfg.scriptsRoot.comps _ _
              (foldl_dotdot_example true) (by decide) (by decide)
        rw [hkey]
  refine ⟨?_, ?_, ?_, ?_⟩
  · intro cfg cwd p hw hp
    unfold LuaSandbox.isPathAllowed specAdmitted
    rw [if_neg (by simp [hp])]
    by_cases hab : p.abs = true
    · rw [if_neg (by simp [hab]), if_pos hab]
      unfold fs_utils.startsWithAny
      exact list_any_congr _ _ _ (fun a ha =>
        startsWith_norm_entry cwd p a hab (hw.2.2 a ha).1 (hw.2.2 a ha).2)
    · have hab' : (!p.abs) = true := by simp [hab]
      rw [if_pos hab', if_neg hab]
      by_cases hroot : cfg.scriptsRoot.isEmptyPath = true
      · rw [if_pos hroot, hw.1 hroot]
        rfl
      · rw [if_neg hroot]
        unfold fs_utils.startsWithAny
        have hXabs : (cfg.scriptsRoot.join p).abs = true := by
          simp [FsPath.join, hw.2.1 (by simpa using hroot)]
        exact list_any_congr _ _ _ (fun a ha =>
          startsWith_norm_entry cwd _ a hXabs (hw.2.2 a ha).1 (hw.2.2 a ha).2)
  · intro cfg cwd p hnil
    unfold LuaSandbox.isPathAllowed fs_utils.startsWithAny
    rw [hnil]
    split_ifs <;> simp
  · intro cfg cwd p hE
    unfold LuaSandbox.isPathAllowed
    rw [if_pos hE]
  · intro root allowed cwd
    exact hgen (LuaSandbox.setPathsForScripts root allowed) cwd

/-- C1 counterexample: with root /r and allow-list [/r], the empty path is
rejected by isPathAllowed although the allow entry /r is a component-aligned
prefix of the lexical normalization of the root-joined empty path — so the
claimed iff fails at the empty path. -/
theorem isPathAllowed_empty_path_counterexample :
    LuaSandbox.isPathAllowed cfgC1 ⟨true, []⟩ ⟨false, []⟩ = false ∧
    specAdmitted cfgC1 ⟨false, []⟩ = true := by
  constructor
  · rfl
  · rfl

/-- C1 witness: the amended iff evaluated at the /r policy and the concrete
absolute path /r/x.lua. -/
theorem isPathAllowed_admission_witness :
    LuaSandbox.isPathAllowed cfgC1 ⟨true, []⟩ ⟨true, ["r", "x.lua"]⟩ =
      specAdmitted cfgC1 ⟨true, ["r", "x.lua"]⟩ :=
  isPathAllowed_admission.1 cfgC1 ⟨true, []⟩ ⟨true, ["r", "x.lua"]⟩
    (wf_setPathsForScripts rootC1 [rootC1]) (by decide)
